import Mathlib

/-!
Verification development for the sliding-window optimization pass
(src/src/SlidingWindow.cpp).  The pass rewrites the required-region bounds
of a pipeline stage inside a serial loop so that each iteration only
computes the newly needed slice.

The IR (expressions, statements), the stage description, and every helper
of the pass are embedded below as executable Lean definitions translated
from the C++ source.  External collaborators that live outside this
repository unit (the monotonicity oracle, the interval solver, the
simplifier, the theorem prover, the box computation, the fresh-name
generator and the logging sink) are supplied as explicit oracle
parameters, mirroring the contracts listed in the design document.
-/

namespace SW

/-- Result type of the monotonicity oracle (Monotonic.h collaborator). -/
inductive Monotonic where
  | Constant
  | Increasing
  | Decreasing
  | Unknown
deriving Repr, DecidableEq, BEq

/-- Loop kinds relevant to the pass.  Only Serial and Unrolled loops are
slid over; all other kinds are left alone by the per-stage driver. -/
inductive ForType where
  | Serial
  | Parallel
  | Vectorized
  | Unrolled
  | GPUBlock
  | GPUThread
deriving Repr, DecidableEq, BEq

/-- Expressions of the IR fragment manipulated by the pass: variables,
integer literals, arithmetic, comparisons, select, let-bindings and
(possibly impure) single-argument intrinsic calls such as
likely_if_innermost. -/
inductive Expr where
  | var (name : String)
  | intImm (v : Int)
  | add (a b : Expr)
  | sub (a b : Expr)
  | minE (a b : Expr)
  | maxE (a b : Expr)
  | eq (a b : Expr)
  | le (a b : Expr)
  | ge (a b : Expr)
  | select (c t f : Expr)
  | letE (name : String) (value body : Expr)
  | call (fn : String) (pure : Bool) (arg : Expr)
deriving Repr, DecidableEq, BEq

/-- Statements of the IR fragment: producer and consumer markers, loops,
let statements, one-armed conditionals, sequencing and a leaf. -/
inductive Stmt where
  | producerConsumer (name : String) (producer : Bool) (body : Stmt)
  | forS (name : String) (lo extent : Expr) (ftype : ForType) (body : Stmt)
  | letStmt (name : String) (value : Expr) (body : Stmt)
  | ifThenElse (cond : Expr) (body : Stmt)
  | block (first second : Stmt)
  | evaluate (e : Expr)
deriving Repr, DecidableEq, BEq

/-- A definition of a stage: its argument expressions and its guarded
specializations (each of which carries a definition of its own). -/
inductive Definition where
  | mk (args : List Expr) (specializations : List Definition)
deriving Repr

/-- Argument expressions of a definition. -/
def Definition.args : Definition → List Expr
  | .mk a _ => a

/-- Specializations of a definition. -/
def Definition.specializations : Definition → List Definition
  | .mk _ s => s

/-- A pipeline stage: name, dimension argument names, the primary
definition, and the ordered update definitions. -/
structure FunctionH where
  fname : String
  fargs : List String
  init_def : Definition
  updates : List Definition
deriving Repr

/-- Number of dimensions of a stage. -/
def FunctionH.dimensions (f : FunctionH) : Nat := f.fargs.length

/-- Interval returned by the interval solver; a missing side means the
solver could not bound the solution on that side. -/
structure Interval where
  lower : Option Expr
  upper : Option Expr
deriving Repr, DecidableEq

/-- Scope of visible symbolic bindings, innermost binding first. -/
abbrev Scope := List (String × Expr)

/-- Scope lookup: the innermost binding of a name wins. -/
def scopeLookup (s : Scope) (n : String) : Option Expr :=
  match s with
  | [] => none
  | (k, v) :: rest => if k = n then some v else scopeLookup rest n

/-- Translation of ExprDependsOnVar: does an expression depend on a
particular variable?  A let-binding's value is always checked; its body is
checked only when the binding does not rebind the same name. -/
def expr_depends_on_var : Expr → String → Bool
  | .var n, v => n = v
  | .intImm _, _ => false
  | .add a b, v => expr_depends_on_var a v || expr_depends_on_var b v
  | .sub a b, v => expr_depends_on_var a v || expr_depends_on_var b v
  | .minE a b, v => expr_depends_on_var a v || expr_depends_on_var b v
  | .maxE a b, v => expr_depends_on_var a v || expr_depends_on_var b v
  | .eq a b, v => expr_depends_on_var a v || expr_depends_on_var b v
  | .le a b, v => expr_depends_on_var a v || expr_depends_on_var b v
  | .ge a b, v => expr_depends_on_var a v || expr_depends_on_var b v
  | .select c t f, v =>
      expr_depends_on_var c v || expr_depends_on_var t v || expr_depends_on_var f v
  | .letE n val body, v =>
      expr_depends_on_var val v ||
        (if n = v then false else expr_depends_on_var body v)
  | .call _ _ a, v => expr_depends_on_var a v

/-- Translation of ExpandExpr / expand_expr: substitute every variable
visible in the scope by its binding; unbound names are left as-is.  Only
the Variable case is overridden; every other node is rebuilt from its
recursively expanded children. -/
def expand_expr : Expr → Scope → Expr
  | .var n, s =>
      match scopeLookup s n with
      | some e => e
      | none => .var n
  | .intImm v, _ => .intImm v
  | .add a b, s => .add (expand_expr a s) (expand_expr b s)
  | .sub a b, s => .sub (expand_expr a s) (expand_expr b s)
  | .minE a b, s => .minE (expand_expr a s) (expand_expr b s)
  | .maxE a b, s => .maxE (expand_expr a s) (expand_expr b s)
  | .eq a b, s => .eq (expand_expr a s) (expand_expr b s)
  | .le a b, s => .le (expand_expr a s) (expand_expr b s)
  | .ge a b, s => .ge (expand_expr a s) (expand_expr b s)
  | .select c t f, s => .select (expand_expr c s) (expand_expr t s) (expand_expr f s)
  | .letE n val body, s => .letE n (expand_expr val s) (expand_expr body s)
  | .call fn p a, s => .call fn p (expand_expr a s)

/-- Modelled from the spec: the substitution engine (Substitute.h is not
part of this unit).  Replaces free occurrences of the mapped names by
their expressions; a let that rebinds a mapped name shadows it in its
body. -/
def substituteMapE (m : List (String × Expr)) : Expr → Expr
  | .var n =>
      match scopeLookup m n with
      | some e => e
      | none => .var n
  | .intImm v => .intImm v
  | .add a b => .add (substituteMapE m a) (substituteMapE m b)
  | .sub a b => .sub (substituteMapE m a) (substituteMapE m b)
  | .minE a b => .minE (substituteMapE m a) (substituteMapE m b)
  | .maxE a b => .maxE (substituteMapE m a) (substituteMapE m b)
  | .eq a b => .eq (substituteMapE m a) (substituteMapE m b)
  | .le a b => .le (substituteMapE m a) (substituteMapE m b)
  | .ge a b => .ge (substituteMapE m a) (substituteMapE m b)
  | .select c t f => .select (substituteMapE m c) (substituteMapE m t) (substituteMapE m f)
  | .letE n val body =>
      .letE n (substituteMapE m val)
        (substituteMapE (m.filter (fun kv => kv.1 ≠ n)) body)
  | .call fn p a => .call fn p (substituteMapE m a)

/-- Single-variable substitution, the form used throughout the slider. -/
def substituteE (v : String) (r : Expr) (e : Expr) : Expr :=
  substituteMapE [(v, r)] e

/-- Modelled from the spec: statement-level substitution used by the
per-stage driver to rename a slid loop; binding statements shadow mapped
names in their bodies. -/
def substituteMapS (m : List (String × Expr)) : Stmt → Stmt
  | .producerConsumer n p b => .producerConsumer n p (substituteMapS m b)
  | .forS n lo ext t b =>
      .forS n (substituteMapE m lo) (substituteMapE m ext) t
        (substituteMapS (m.filter (fun kv => kv.1 ≠ n)) b)
  | .letStmt n v b =>
      .letStmt n (substituteMapE m v)
        (substituteMapS (m.filter (fun kv => kv.1 ≠ n)) b)
  | .ifThenElse c b => .ifThenElse (substituteMapE m c) (substituteMapS m b)
  | .block a b => .block (substituteMapS m a) (substituteMapS m b)
  | .evaluate e => .evaluate (substituteMapE m e)

/-- Modelled from the spec: is_pure (IROperator collaborator) decides
whether an expression is provably side-effect-free; only calls flagged
impure poison an expression. -/
def is_pure : Expr → Bool
  | .var _ => true
  | .intImm _ => true
  | .add a b => is_pure a && is_pure b
  | .sub a b => is_pure a && is_pure b
  | .minE a b => is_pure a && is_pure b
  | .maxE a b => is_pure a && is_pure b
  | .eq a b => is_pure a && is_pure b
  | .le a b => is_pure a && is_pure b
  | .ge a b => is_pure a && is_pure b
  | .select c t f => is_pure c && is_pure t && is_pure f
  | .letE _ v b => is_pure v && is_pure b
  | .call _ p a => p && is_pure a

/-- Modelled from the spec: is_const_one (IROperator collaborator). -/
def is_const_one : Expr → Bool
  | .intImm v => v = 1
  | _ => false

/-- Translation of FindProduce / find_produce: does a statement contain a
producer node for the named stage? -/
def find_produce : Stmt → String → Bool
  | .producerConsumer nm p body, f =>
      if p && nm = f then true else find_produce body f
  | .forS _ _ _ _ b, f => find_produce b f
  | .letStmt _ _ b, f => find_produce b f
  | .ifThenElse _ b, f => find_produce b f
  | .block a b, f => find_produce a f || find_produce b f
  | .evaluate _, _ => false

mutual
/-- Translation of is_dim_always_pure: the definition's argument at the
given index must be a variable equal to the dimension name, in the
definition itself and recursively in all its specializations. -/
def is_dim_always_pure : Definition → String → Nat → Bool
  | .mk args specs, dim, dim_idx =>
      (match args[dim_idx]? with
       | some (.var n) => n = dim
       | _ => false)
      && specsAlwaysPure specs dim dim_idx

/-- Helper for is_dim_always_pure: check every specialization. -/
def specsAlwaysPure : List Definition → String → Nat → Bool
  | [], _, _ => true
  | d :: ds, dim, dim_idx =>
      is_dim_always_pure d dim dim_idx && specsAlwaysPure ds dim dim_idx
end

/-- Evaluation of an expression under an integer valuation; comparisons
yield 0/1, select tests its condition against 0, a call is transparent
(likely_if_innermost is an identity hint). -/
def evalE (σ : String → Int) : Expr → Int
  | .var n => σ n
  | .intImm v => v
  | .add a b => evalE σ a + evalE σ b
  | .sub a b => evalE σ a - evalE σ b
  | .minE a b => min (evalE σ a) (evalE σ b)
  | .maxE a b => max (evalE σ a) (evalE σ b)
  | .eq a b => if evalE σ a = evalE σ b then 1 else 0
  | .le a b => if evalE σ a ≤ evalE σ b then 1 else 0
  | .ge a b => if evalE σ b ≤ evalE σ a then 1 else 0
  | .select c t f => if evalE σ c ≠ 0 then evalE σ t else evalE σ f
  | .letE n v b => evalE (fun x => if x = n then evalE σ v else σ x) b
  | .call _ _ a => evalE σ a

/-- External collaborators consumed by the pass, per the interface list of
the design document: the monotonicity oracle, the prover, the simplifier,
the promise-wrapper eliminator, the interval solver, the written-region box
query (queried here at one dimension index), the fresh-name generator and
the presence of the compiler-logging sink. -/
structure Oracles where
  is_monotonic : Expr → String → Monotonic
  can_prove : Expr → Bool
  simplify : Expr → Expr
  lower_safe_promises : Expr → Expr
  solve_for_inner_interval : Expr → String → Interval
  box_provided : Stmt → String → Nat → Expr × Expr
  fresh : Nat → String
  logger : Bool

/-- Mutable state of one SlidingWindowOnFunctionAndLoop traversal: the
replacement map for bound names, the adopted new loop minimum, the records
emitted to the logging sink, and the fresh-name counter. -/
structure SWState where
  replacements : List (String × Expr)
  new_loop_min : Option Expr
  diags : List (String × Expr)
  ctr : Nat
deriving Repr, DecidableEq

/-- Initial traversal state: empty replacement map, no adopted loop
minimum, no diagnostics. -/
def st0 : SWState := ⟨[], none, [], 0⟩

/-- Insert (or overwrite) a key in the replacement map. -/
def insertRepl (k : String) (v : Expr) : List (String × Expr) → List (String × Expr)
  | [] => [(k, v)]
  | (k', v') :: rest =>
      if k' = k then (k, v) :: rest else (k', v') :: insertRepl k v rest

/-- Remove a key from the replacement map. -/
def eraseRepl (k : String) : List (String × Expr) → List (String × Expr)
  | [] => []
  | (k', v') :: rest => if k' = k then rest else (k', v') :: eraseRepl k rest

/-- Bound-name prefix of the last definition stage of a function, as built
at the start of the producer visit. -/
def stagePfx (f : FunctionH) : String :=
  f.fname ++ ".s" ++ toString f.updates.length ++ "."

/-- Look up and expand the required-region bounds of one dimension; none
models a failure of the internal assertion that both names are in scope. -/
def boundsAt (pfx : String) (scope : Scope) (a : String) : Option (Expr × Expr) :=
  match scopeLookup scope (pfx ++ a ++ ".min"), scopeLookup scope (pfx ++ a ++ ".max") with
  | some m, some M => some (expand_expr m scope, expand_expr M scope)
  | _, _ => none

/-- Total accessor for boundsAt, used in theorem statements under a
presence hypothesis. -/
def boundsAtD (pfx : String) (scope : Scope) (a : String) : Expr × Expr :=
  (boundsAt pfx scope a).getD (.intImm 0, .intImm 0)

/-- Does either expanded bound of this dimension depend on the loop
variable? -/
def depOf (pfx : String) (scope : Scope) (lv : String) (a : String) : Bool :=
  match boundsAt pfx scope a with
  | some (m, M) => expr_depends_on_var m lv || expr_depends_on_var M lv
  | none => false

/-- Outcome of dimension selection: the chosen dimension name and index
and its expanded required bounds. -/
structure Sel where
  dim : String
  dim_idx : Nat
  min_required : Expr
  max_required : Expr
deriving Repr, DecidableEq

/-- Worker for the dimension-selection loop of the producer visit (the
for-loop over the dimensions).  The accumulator mirrors the mutable
dim / dim_idx / min_required / max_required of the C++ loop; returning
none models the break that clears the selection when a second dependent
dimension is found, and an error models the internal assertion on missing
scope entries. -/
def selectDimGo (pfx : String) (scope : Scope) (lv : String) (dims : Nat) :
    List String → Nat → Option Sel → Except String (Option Sel)
  | [], _, acc => .ok acc
  | a :: rest, i, acc =>
      match boundsAt pfx scope a with
      | none => .error "internal assert: required bounds not in scope"
      | some (m, M) =>
          if expr_depends_on_var m lv || expr_depends_on_var M lv then
            match acc with
            | some _ => .ok none
            | none => selectDimGo pfx scope lv dims rest (i + 1) (some ⟨a, i, m, M⟩)
          else
            if acc.isNone ∧ i = dims - 1 ∧ is_pure m ∧ is_pure M then
              selectDimGo pfx scope lv dims rest (i + 1) (some ⟨a, i, m, M⟩)
            else
              selectDimGo pfx scope lv dims rest (i + 1) acc

/-- Dimension selection over all dimensions of the stage's last
definition. -/
def selectDim (func : FunctionH) (lv : String) (scope : Scope) :
    Except String (Option Sel) :=
  selectDimGo (stagePfx func) scope lv func.fargs.length func.fargs 0 none

/-- Purity check of the producer visit: every update definition (with its
specializations) must be pure in the selected dimension.  The primary
definition is not consulted by the code. -/
def updatesPure (func : FunctionH) (dim : String) (dim_idx : Nat) : Bool :=
  func.updates.all (fun d => is_dim_always_pure d dim dim_idx)

/-- Direction decision of the producer visit: classify both expanded
bounds with the monotonicity oracle; sliding up needs an increasing or
constant minimum, sliding down a decreasing or constant maximum; an
unknown classification is recorded to the logging sink when one is
configured. -/
def directionDecision (o : Oracles) (lv : String) (min_required max_required : Expr) :
    Bool × Bool × List (String × Expr) :=
  let mmin := o.is_monotonic min_required lv
  let mmax := o.is_monotonic max_required lv
  let can_slide_up : Bool := mmin = .Increasing ∨ mmin = .Constant
  let ds1 : List (String × Expr) :=
    if mmin = .Unknown ∧ o.logger then [(lv, min_required)] else []
  let can_slide_down : Bool := mmax = .Decreasing ∨ mmax = .Constant
  let ds2 : List (String × Expr) :=
    if mmax = .Unknown ∧ o.logger then [(lv, max_required)] else []
  (can_slide_up, can_slide_down, ds1 ++ ds2)

/-- Has the solver returned a single-point solution?  This is the
has_upper_bound plus min-equals-max test of the code. -/
def singlePoint (iv : Interval) : Bool :=
  match iv.lower, iv.upper with
  | some lo, some hi => lo = hi
  | _, _ => false

/-- The new-loop-start equation fed to the interval solver, before
promise-wrapper lowering. -/
def newLoopMinEq (lv : String) (loop_min : Expr) (min_required max_required : Expr)
    (pmp1 pmm1 : Expr) (can_slide_up : Bool) (name : String) : Expr :=
  if can_slide_up then
    .eq (substituteE lv loop_min min_required) (substituteE lv (.var name) pmp1)
  else
    .eq (substituteE lv loop_min max_required) (substituteE lv (.var name) pmm1)

/-- Translation of the solve step of the producer visit: solve the
new-loop-start equation; a single-point solution is adopted as the new
loop minimum (dropped again when it equals the unmodified loop minimum)
and the tightened region is the adjacent-iteration bound; otherwise the
region bound falls back to a guarded select and the loop start is left
unchanged.  Adopting a solution while one is already recorded trips the
internal assertion. -/
def solveStage (o : Oracles) (lv : String) (loop_min : Expr)
    (min_required max_required pmp1 pmm1 : Expr) (can_slide_up : Bool)
    (st : SWState) : Except String (Expr × Expr × SWState) :=
  let name := o.fresh st.ctr
  let st1 : SWState := { st with ctr := st.ctr + 1 }
  let eqn := o.lower_safe_promises
    (newLoopMinEq lv loop_min min_required max_required pmp1 pmm1 can_slide_up name)
  let iv := o.solve_for_inner_interval eqn name
  if singlePoint iv then
    if st1.new_loop_min.isSome then
      .error "internal assert: new_loop_min already defined"
    else
      let nlm := o.simplify (iv.upper.getD (.intImm 0))
      let nlm? : Option Expr := if nlm = loop_min then none else some nlm
      let st2 : SWState := { st1 with new_loop_min := nlm? }
      if can_slide_up then .ok (pmp1, max_required, st2)
      else .ok (min_required, pmm1, st2)
  else
    if can_slide_up then
      .ok (.select (.le (.var lv) loop_min) min_required
             (.call "likely_if_innermost" true pmp1),
           max_required, st1)
    else
      .ok (min_required,
           .select (.le (.var lv) loop_min) max_required
             (.call "likely_if_innermost" true pmm1),
           st1)

/-- Record the per-update aliases: each earlier stage's bound names on the
sliding dimension are redirected to the last stage's bound names. -/
def addUpdateAliases (fname dim pfxdim : String) (n : Nat)
    (reps : List (String × Expr)) : List (String × Expr) :=
  (List.range n).foldl
    (fun r i =>
      let base := fname ++ ".s" ++ toString i ++ "." ++ dim
      insertRepl (base ++ ".max") (.var (pfxdim ++ ".max"))
        (insertRepl (base ++ ".min") (.var (pfxdim ++ ".min")) r))
    reps

/-- Translation of the producer branch of
SlidingWindowOnFunctionAndLoop::visit(ProducerConsumer), for a producer of
the stage being slid: dimension selection, purity guard, direction
decision, overlap guard, solve, bound rewriting, and for staged functions
the widening of the rewritten bound by the provided box. -/
def slideProducer (o : Oracles) (func : FunctionH) (lv : String) (loop_min : Expr)
    (scope : Scope) (opBody : Stmt) (st : SWState) : Except String (Stmt × SWState) :=
  let stmt : Stmt := .producerConsumer func.fname true opBody
  let pfx := stagePfx func
  match selectDim func lv scope with
  | .error e => .error e
  | .ok none => .ok (stmt, st)
  | .ok (some sel) =>
      if !updatesPure func sel.dim sel.dim_idx then
        .ok (stmt, st)
      else
        let dd := directionDecision o lv sel.min_required sel.max_required
        let can_slide_up := dd.1
        let can_slide_down := dd.2.1
        let st1 : SWState := { st with diags := st.diags ++ dd.2.2 }
        if !can_slide_up && !can_slide_down then
          .ok (stmt, st1)
        else
          let pmp1 : Expr :=
            .add (substituteE lv (.sub (.var lv) (.intImm 1)) sel.max_required) (.intImm 1)
          let pmm1 : Expr :=
            .sub (substituteE lv (.sub (.var lv) (.intImm 1)) sel.min_required) (.intImm 1)
          if o.can_prove (.ge sel.min_required pmp1) ||
             o.can_prove (.le sel.max_required pmm1) then
            .ok (stmt, st1)
          else
            match solveStage o lv loop_min sel.min_required sel.max_required
                pmp1 pmm1 can_slide_up st1 with
            | .error e => .error e
            | .ok (new_min, new_max, st2) =>
                let st3 : SWState :=
                  if can_slide_up then
                    { st2 with replacements :=
                        insertRepl (pfx ++ sel.dim ++ ".min") new_min st2.replacements }
                  else
                    { st2 with replacements :=
                        insertRepl (pfx ++ sel.dim ++ ".max") new_max st2.replacements }
                let st4 : SWState :=
                  { st3 with replacements :=
                      (addUpdateAliases func.fname sel.dim (pfx ++ sel.dim)
                        func.updates.length st3.replacements) }
                if func.updates.isEmpty then
                  .ok (stmt, st4)
                else
                  let b := o.box_provided opBody func.fname sel.dim_idx
                  if can_slide_up then
                    let n := pfx ++ sel.dim ++ ".min"
                    .ok (.letStmt n (.minE (.var n) b.1) stmt, st4)
                  else
                    let n := pfx ++ sel.dim ++ ".max"
                    .ok (.letStmt n (.maxE (.var n) b.2) stmt, st4)

/-- Translation of the SlidingWindowOnFunctionAndLoop mutator.  Producer
nodes of the stage run the slide pipeline; consumer nodes that do not
contain a producer of the stage are guarded against warmup iterations
once a new loop minimum has been adopted; loops whose expanded bounds are
not provably constant in the loop variable are not entered; a single-trip
loop is packed into a let statement, traversed, and unpacked (the let
visit is inlined here, and the unpacking discards the let value while the
replacement-map consumption persists); let statements push their
expanded, simplified value into the scope and consume a pending
replacement for their name on the way back up. -/
def mutateStmt (o : Oracles) (func : FunctionH) (lv : String) (loop_min : Expr) :
    Scope → Stmt → SWState → Except String (Stmt × SWState)
  | scope, .producerConsumer nm p body, st =>
      if p then
        if nm = func.fname then
          slideProducer o func lv loop_min scope body st
        else
          match mutateStmt o func lv loop_min scope body st with
          | .error e => .error e
          | .ok (b, st') => .ok (.producerConsumer nm p b, st')
      else
        if !(find_produce (.producerConsumer nm p body) func.fname) &&
           st.new_loop_min.isSome then
          match mutateStmt o func lv loop_min scope body st with
          | .error e => .error e
          | .ok (b, st') =>
              let guard : Expr := .call "likely_if_innermost" true
                (.ge (.var lv) (.var (lv ++ ".loop_min.orig")))
              .ok (.producerConsumer nm false (.ifThenElse guard b), st')
        else
          match mutateStmt o func lv loop_min scope body st with
          | .error e => .error e
          | .ok (b, st') => .ok (.producerConsumer nm p b, st')
  | scope, .forS nm lo ext t body, st =>
      let lo' := expand_expr lo scope
      let ext' := expand_expr ext scope
      if is_const_one ext' then
        let scope' := (nm, o.simplify (expand_expr lo' scope)) :: scope
        match mutateStmt o func lv loop_min scope' body st with
        | .error e => .error e
        | .ok (b, st') =>
            if (List.lookup nm st'.replacements).isSome then
              .ok (.forS nm lo ext t b,
                   { st' with replacements := eraseRepl nm st'.replacements })
            else
              .ok (.forS nm lo ext t b, st')
      else
        if o.is_monotonic lo' lv ≠ .Constant ∨ o.is_monotonic ext' lv ≠ .Constant then
          .ok (.forS nm lo ext t body, st)
        else
          match mutateStmt o func lv loop_min scope body st with
          | .error e => .error e
          | .ok (b, st') => .ok (.forS nm lo ext t b, st')
  | scope, .letStmt nm v body, st =>
      let scope' := (nm, o.simplify (expand_expr v scope)) :: scope
      match mutateStmt o func lv loop_min scope' body st with
      | .error e => .error e
      | .ok (b, st') =>
          match List.lookup nm st'.replacements with
          | some v' =>
              .ok (.letStmt nm v' b,
                   { st' with replacements := eraseRepl nm st'.replacements })
          | none => .ok (.letStmt nm v b, st')
  | scope, .ifThenElse c body, st =>
      match mutateStmt o func lv loop_min scope body st with
      | .error e => .error e
      | .ok (b, st') => .ok (.ifThenElse c b, st')
  | scope, .block a b, st =>
      match mutateStmt o func lv loop_min scope a st with
      | .error e => .error e
      | .ok (a', st1) =>
          match mutateStmt o func lv loop_min scope b st1 with
          | .error e => .error e
          | .ok (b', st2) => .ok (.block a' b', st2)
  | _, .evaluate e, st => .ok (.evaluate e, st)

/-- Translation of SlidingWindowOnFunction, the per-stage driver, as a
fuel-indexed traversal (the fuel only has to dominate the tree depth; it
shrinks by one at every recursion step).  At a serial or unrolled loop the
per-loop slider runs on the body with a fresh state; when it adopted a
new loop minimum the loop is renamed with the ".n" suffix, references to
the old loop name and its loop_min / loop_extent names are rewritten, the
extent is recomputed from the old loop maximum, and the loop is wrapped
in bindings for the new minimum, the saved original minimum, the
recomputed extent and the derived maximum.  Loops of any other kind only
have their bodies traversed. -/
def swofMutateF (o : Oracles) (func : FunctionH) : Nat → Stmt → Except String Stmt
  | 0, _ => .error "out of fuel"
  | fuel + 1, s =>
      match s with
      | .producerConsumer nm p b =>
          match swofMutateF o func fuel b with
          | .error e => .error e
          | .ok b' => .ok (.producerConsumer nm p b')
      | .letStmt nm v b =>
          match swofMutateF o func fuel b with
          | .error e => .error e
          | .ok b' => .ok (.letStmt nm v b')
      | .ifThenElse c b =>
          match swofMutateF o func fuel b with
          | .error e => .error e
          | .ok b' => .ok (.ifThenElse c b')
      | .block a b =>
          match swofMutateF o func fuel a with
          | .error e => .error e
          | .ok a' =>
              match swofMutateF o func fuel b with
              | .error e => .error e
              | .ok b' => .ok (.block a' b')
      | .evaluate e => .ok (.evaluate e)
      | .forS nm lo ext t body =>
          let sliderRes : Except String (Stmt × Option Expr) :=
            if t = ForType.Serial ∨ t = ForType.Unrolled then
              match mutateStmt o func nm lo [] body st0 with
              | .error e => .error e
              | .ok (b1, stS) => .ok (b1, stS.new_loop_min)
            else .ok (body, none)
          match sliderRes with
          | .error e => .error e
          | .ok (body1, none) =>
              match swofMutateF o func fuel body1 with
              | .error e => .error e
              | .ok b2 => .ok (.forS nm lo ext t b2)
          | .ok (body1, some nlm) =>
              match lo with
              | .var loName =>
                  let nln := nm ++ ".n"
                  let loop_max_name := loName.dropRight 2 ++ "ax"
                  let new_loop_extent : Expr :=
                    .add (.sub (.var loop_max_name) (.var (nln ++ ".loop_min")))
                      (.intImm 1)
                  let nmin : Expr := .var (nln ++ ".loop_min")
                  let next : Expr := .var (nln ++ ".loop_extent")
                  let new_min : Expr := if nln = nm then lo else nmin
                  let new_extent : Expr := if nln = nm then ext else next
                  let body2 : Stmt :=
                    if nln = nm then body1
                    else
                      substituteMapS
                        [(nm, .var nln), (nm ++ ".loop_extent", next),
                         (nm ++ ".loop_min", nmin)] body1
                  match swofMutateF o func fuel body2 with
                  | .error e => .error e
                  | .ok b3 =>
                      let new_for : Stmt := .forS nln new_min new_extent t b3
                      let new_loop_max : Expr :=
                        .sub (.add (.var (nln ++ ".loop_min"))
                          (.var (nln ++ ".loop_extent"))) (.intImm 1)
                      .ok (.letStmt (nln ++ ".loop_min") nlm
                            (.letStmt (nln ++ ".loop_min.orig") (.var (nln ++ ".loop_min"))
                              (.letStmt (nln ++ ".loop_extent") new_loop_extent
                                (.letStmt (nln ++ ".loop_max") new_loop_max new_for))))
              | _ => .error "internal: loop min is not a variable"

/-! Concrete collaborator instances and inputs used to exercise the pass
on closed terms. -/

/-- A concrete collaborator bundle: every bound is classified increasing,
nothing is provable, the simplifier and promise eliminator are the
identity, and the solver always returns the single point 5. -/
def oT : Oracles := {
  is_monotonic := fun _ _ => .Increasing,
  can_prove := fun _ => false,
  simplify := id,
  lower_safe_promises := id,
  solve_for_inner_interval := fun _ _ => ⟨some (.intImm 5), some (.intImm 5)⟩,
  box_provided := fun _ _ _ => (.intImm 0, .intImm 0),
  fresh := fun n => "xf" ++ toString n,
  logger := false }

/-- A one-dimensional stage with no update definitions whose primary
definition writes at index x+1 (not a pass-through axis). -/
def fImpureInit : FunctionH := ⟨"f", ["x"], .mk [.add (.var "x") (.intImm 1)] [], []⟩

/-- Producer statement with the bound names of the last stage defined by
enclosing let statements, reading a window that slides with loop t. -/
def inSlide : Stmt :=
  .letStmt "f.s0.x.min" (.var "t")
    (.letStmt "f.s0.x.max" (.add (.var "t") (.intImm 1))
      (.producerConsumer "f" true (.evaluate (.intImm 0))))

/-- The rewritten form of inSlide: the sliding pass narrows the min bound
to the adjacent-iteration bound (t - 1 + 1) + 1. -/
def outSlide : Stmt :=
  .letStmt "f.s0.x.min"
    (.add (.add (.sub (.var "t") (.intImm 1)) (.intImm 1)) (.intImm 1))
    (.letStmt "f.s0.x.max" (.add (.var "t") (.intImm 1))
      (.producerConsumer "f" true (.evaluate (.intImm 0))))

/-- A bare producer node for stage f. -/
def pOnly : Stmt := .producerConsumer "f" true (.evaluate (.intImm 0))

/-- A scope that already carries the required bounds of stage f, as the
enclosing let statements would have pushed them. -/
def scSlide : Scope := [("f.s0.x.min", .var "t"), ("f.s0.x.max", .add (.var "t") (.intImm 1))]

/-! Claim C9. -/

/-- C9 (counterexample): scoped expansion does descend past a let that
re-binds a name bound in the current scope, and substitutes the occurrence
inside the inner body according to the outer scope binding — refuting the
claim that the inner binding shadows the outer during expansion. -/
theorem C9_counterexample :
    expand_expr (.letE "x" (.intImm 3) (.var "x")) [("x", .intImm 7)]
      = .letE "x" (.intImm 3) (.intImm 7) ∧
    Expr.letE "x" (.intImm 3) (.intImm 7) ≠ .letE "x" (.intImm 3) (.var "x") :=
  ⟨rfl, by decide⟩

/-- C9 (amended): only the dependence check refuses to descend past a let
that re-binds the tested name (shadowing cuts the dependence off), while
scoped expansion rebuilds a let from its expanded value and its expanded
body under the unchanged outer scope, substituting occurrences inside the
inner body according to the outer binding. -/
theorem C9_shadowing_amended :
    ∀ (v : String) (val body : Expr) (scope : Scope),
      expr_depends_on_var (.letE v val body) v = expr_depends_on_var val v ∧
      expand_expr (.letE v val body) scope
        = .letE v (expand_expr val scope) (expand_expr body scope) := by
  intro v val body scope
  exact ⟨by simp [expr_depends_on_var], rfl⟩

/-! Claim C10. -/

/-- C10: once a new loop minimum is recorded, a further single-point
solution for the new-loop-start equation trips the internal assertion of
the solve step instead of overwriting the recorded value. -/
theorem C10_single_adoption_assert
    (o : Oracles) (lv : String) (lm m M p1 p2 : Expr) (up : Bool) (st : SWState)
    (e : Expr)
    (hrec : st.new_loop_min = some e)
    (hsp : singlePoint (o.solve_for_inner_interval
        (o.lower_safe_promises (newLoopMinEq lv lm m M p1 p2 up (o.fresh st.ctr)))
        (o.fresh st.ctr)) = true) :
    solveStage o lv lm m M p1 p2 up st
      = .error "internal assert: new_loop_min already defined" := by
  unfold solveStage
  simp [hsp, hrec]

/-- C10 (witness): a two-producer block for the same stage in which both
producers reach a single-point solve; the first adopts the new loop
minimum 5, and the whole traversal then aborts with the internal
assertion at the second producer. -/
theorem C10_witness :
    (SWState.new_loop_min ⟨[], some (.intImm 5), [], 1⟩ = some (.intImm 5)) ∧
    singlePoint (oT.solve_for_inner_interval
        (oT.lower_safe_promises (newLoopMinEq "t" (.intImm 0) (.var "t")
          (.add (.var "t") (.intImm 1)) (.intImm 0) (.intImm 0) true (oT.fresh 1)))
        (oT.fresh 1)) = true ∧
    solveStage oT "t" (.intImm 0) (.var "t") (.add (.var "t") (.intImm 1))
        (.intImm 0) (.intImm 0) true ⟨[], some (.intImm 5), [], 1⟩
      = .error "internal assert: new_loop_min already defined" ∧
    mutateStmt oT fImpureInit "t" (.intImm 0) scSlide (.block pOnly pOnly) st0
      = .error "internal assert: new_loop_min already defined" :=
  ⟨rfl, rfl,
   C10_single_adoption_assert oT "t" (.intImm 0) (.var "t")
     (.add (.var "t") (.intImm 1)) (.intImm 0) (.intImm 0) true
     ⟨[], some (.intImm 5), [], 1⟩ (.intImm 5) rfl rfl,
   rfl⟩

/-! Claim C3. -/

/-- C3 (counterexample): the purity guard never consults the primary
definition.  A stage whose primary definition writes at x+1 along the
candidate axis (not a pass-through axis) is still transformed: the bound
binding of the producer is narrowed, so the claim that the transform is
applied only when the primary definition is pure in the dimension fails. -/
theorem C3_counterexample :
    is_dim_always_pure fImpureInit.init_def "x" 0 = false ∧
    mutateStmt oT fImpureInit "t" (.intImm 0) [] inSlide st0
      = .ok (outSlide, ⟨[], some (.intImm 5), [], 1⟩) ∧
    outSlide ≠ inSlide :=
  ⟨rfl, rfl, by decide⟩

/-- C3 (amended): the purity guard checks the selected dimension in every
update definition and in every specialization of those update definitions;
the primary definition is not examined.  When the check fails for any
update definition the producer subtree is returned unchanged. -/
theorem C3_purity_guard_updates
    (o : Oracles) (func : FunctionH) (lv : String) (lm : Expr) (scope : Scope)
    (body : Stmt) (st : SWState) (sel : Sel)
    (hsel : selectDim func lv scope = .ok (some sel))
    (hpure : updatesPure func sel.dim sel.dim_idx = false) :
    slideProducer o func lv lm scope body st
      = .ok (.producerConsumer func.fname true body, st) := by
  unfold slideProducer
  simp [hsel, hpure]

/-- C3 (witness): a stage with a pure primary definition but a scattering
update (writes at x+1) is left unmodified by the producer visit. -/
theorem C3_purity_witness :
    (selectDim ⟨"g", ["x"], .mk [.var "x"] [], [.mk [.add (.var "x") (.intImm 1)] []]⟩
        "t" [("g.s1.x.min", .var "t"), ("g.s1.x.max", .var "t")]
      = .ok (some ⟨"x", 0, .var "t", .var "t"⟩)) ∧
    (updatesPure ⟨"g", ["x"], .mk [.var "x"] [], [.mk [.add (.var "x") (.intImm 1)] []]⟩
        "x" 0 = false) ∧
    slideProducer oT ⟨"g", ["x"], .mk [.var "x"] [], [.mk [.add (.var "x") (.intImm 1)] []]⟩
        "t" (.intImm 0) [("g.s1.x.min", .var "t"), ("g.s1.x.max", .var "t")]
        (.evaluate (.intImm 0)) st0
      = .ok (.producerConsumer "g" true (.evaluate (.intImm 0)), st0) :=
  ⟨rfl, rfl,
   C3_purity_guard_updates oT
     ⟨"g", ["x"], .mk [.var "x"] [], [.mk [.add (.var "x") (.intImm 1)] []]⟩
     "t" (.intImm 0) [("g.s1.x.min", .var "t"), ("g.s1.x.max", .var "t")]
     (.evaluate (.intImm 0)) st0 ⟨"x", 0, .var "t", .var "t"⟩ rfl rfl⟩

/-- Collaborators in which every classification is Unknown and a logging
sink is configured. -/
def oU : Oracles := { oT with is_monotonic := fun _ _ => .Unknown, logger := true }

/-- Collaborators whose prover proves everything (used to trigger the
no-overlap abort). -/
def oP : Oracles := { oT with can_prove := fun _ => true }

/-- Collaborators whose solver never bounds the solution (used to trigger
the guarded fallback). -/
def oNS : Oracles := { oT with solve_for_inner_interval := fun _ _ => ⟨none, none⟩ }

/-! Claim C1. -/

/-- C1: sliding up is enabled exactly when the monotonicity oracle
classifies the expanded minimum as Increasing or Constant, sliding down
exactly when it classifies the expanded maximum as Decreasing or
Constant; with a logging sink configured, an Unknown classification emits
a (loop variable, offending bound) record; and when neither direction is
enabled the producer visit returns the subtree unchanged with an ok
result (diagnostics appended), never an error. -/
theorem C1_monotonic_gate (o : Oracles) (lv : String) :
    (∀ m M : Expr,
      ((directionDecision o lv m M).1 = true ↔
         (o.is_monotonic m lv = .Increasing ∨ o.is_monotonic m lv = .Constant)) ∧
      ((directionDecision o lv m M).2.1 = true ↔
         (o.is_monotonic M lv = .Decreasing ∨ o.is_monotonic M lv = .Constant)) ∧
      (o.logger = true →
        (directionDecision o lv m M).2.2
          = (if o.is_monotonic m lv = .Unknown then [(lv, m)] else [])
            ++ (if o.is_monotonic M lv = .Unknown then [(lv, M)] else []))) ∧
    (∀ (func : FunctionH) (lm : Expr) (scope : Scope) (body : Stmt) (st : SWState)
       (sel : Sel),
      selectDim func lv scope = .ok (some sel) →
      updatesPure func sel.dim sel.dim_idx = true →
      (directionDecision o lv sel.min_required sel.max_required).1 = false →
      (directionDecision o lv sel.min_required sel.max_required).2.1 = false →
      slideProducer o func lv lm scope body st
        = .ok (.producerConsumer func.fname true body,
            { st with diags := st.diags ++
                (directionDecision o lv sel.min_required sel.max_required).2.2 })) := by
  constructor
  · intro m M
    refine ⟨?_, ?_, ?_⟩
    · simp [directionDecision]
    · simp [directionDecision]
    · intro hlog
      simp [directionDecision, hlog]
  · intro func lm scope body st sel hsel hpure hup hdown
    unfold slideProducer
    rw [hsel]
    simp [hpure, hup, hdown]

/-- C1 (witness): with a sink configured and the oracle answering Unknown
for both bounds, both diagnostic records are emitted and the producer
subtree of a concrete stage is returned unchanged inside an ok result. -/
theorem C1_gate_witness :
    ((Oracles.logger oU = true) ∧
     (directionDecision oU "t" (.var "t") (.add (.var "t") (.intImm 1))).2.2
       = (if oU.is_monotonic (.var "t") "t" = .Unknown then [("t", Expr.var "t")] else [])
         ++ (if oU.is_monotonic (.add (.var "t") (.intImm 1)) "t" = .Unknown
             then [("t", Expr.add (.var "t") (.intImm 1))] else [])) ∧
    (selectDim fImpureInit "t" scSlide
       = .ok (some ⟨"x", 0, .var "t", .add (.var "t") (.intImm 1)⟩)) ∧
    (updatesPure fImpureInit "x" 0 = true) ∧
    ((directionDecision oU "t" (.var "t") (.add (.var "t") (.intImm 1))).1 = false) ∧
    ((directionDecision oU "t" (.var "t") (.add (.var "t") (.intImm 1))).2.1 = false) ∧
    slideProducer oU fImpureInit "t" (.intImm 0) scSlide (.evaluate (.intImm 0)) st0
      = .ok (.producerConsumer "f" true (.evaluate (.intImm 0)),
          { st0 with diags := st0.diags ++
              (directionDecision oU "t" (.var "t") (.add (.var "t") (.intImm 1))).2.2 }) :=
  ⟨⟨rfl, ((C1_monotonic_gate oU "t").1 (.var "t") (.add (.var "t") (.intImm 1))).2.2 rfl⟩,
   rfl, rfl, rfl, rfl,
   (C1_monotonic_gate oU "t").2 fImpureInit (.intImm 0) scSlide (.evaluate (.intImm 0))
     st0 ⟨"x", 0, .var "t", .add (.var "t") (.intImm 1)⟩ rfl rfl rfl rfl⟩

/-! Claim C4. -/

/-- C4: with prev_max_plus_one the maximum at (loop variable - 1) plus 1
and prev_min_minus_one the minimum at (loop variable - 1) minus 1, if the
prover shows min_required at or above prev_max_plus_one or max_required
at or below prev_min_minus_one, the producer visit returns the subtree
unchanged. -/
theorem C4_no_overlap_abort
    (o : Oracles) (func : FunctionH) (lv : String) (lm : Expr) (scope : Scope)
    (body : Stmt) (st : SWState) (sel : Sel)
    (hsel : selectDim func lv scope = .ok (some sel))
    (hpure : updatesPure func sel.dim sel.dim_idx = true)
    (hover :
      o.can_prove (.ge sel.min_required
        (.add (substituteE lv (.sub (.var lv) (.intImm 1)) sel.max_required)
          (.intImm 1))) = true ∨
      o.can_prove (.le sel.max_required
        (.sub (substituteE lv (.sub (.var lv) (.intImm 1)) sel.min_required)
          (.intImm 1))) = true) :
    slideProducer o func lv lm scope body st
      = .ok (.producerConsumer func.fname true body,
          { st with diags := st.diags ++
              (directionDecision o lv sel.min_required sel.max_required).2.2 }) := by
  unfold slideProducer
  rw [hsel]
  have hcond :
      (o.can_prove (.ge sel.min_required
          (.add (substituteE lv (.sub (.var lv) (.intImm 1)) sel.max_required)
            (.intImm 1))) ||
        o.can_prove (.le sel.max_required
          (.sub (substituteE lv (.sub (.var lv) (.intImm 1)) sel.min_required)
            (.intImm 1)))) = true := by
    rcases hover with h | h <;> simp [h]
  simp [hpure, hcond]

/-- C4 (witness): a concrete stage whose prover proves the disjointness
inequality; the producer subtree comes back unchanged. -/
theorem C4_overlap_witness :
    (selectDim fImpureInit "t" scSlide
       = .ok (some ⟨"x", 0, .var "t", .add (.var "t") (.intImm 1)⟩)) ∧
    (updatesPure fImpureInit "x" 0 = true) ∧
    (oP.can_prove (.ge (.var "t")
        (.add (substituteE "t" (.sub (.var "t") (.intImm 1))
          (.add (.var "t") (.intImm 1))) (.intImm 1))) = true) ∧
    slideProducer oP fImpureInit "t" (.intImm 0) scSlide (.evaluate (.intImm 0)) st0
      = .ok (.producerConsumer "f" true (.evaluate (.intImm 0)),
          { st0 with diags := st0.diags ++
              (directionDecision oP "t" (.var "t") (.add (.var "t") (.intImm 1))).2.2 }) :=
  ⟨rfl, rfl, rfl,
   C4_no_overlap_abort oP fImpureInit "t" (.intImm 0) scSlide (.evaluate (.intImm 0))
     st0 ⟨"x", 0, .var "t", .add (.var "t") (.intImm 1)⟩ rfl rfl (Or.inl rfl)⟩

/-! Claim C5. -/

/-- C5: when the interval solver returns a single-point solution for the
new-loop-start equation, that point (simplified) is adopted as the new
loop minimum, omitted when it equals the unmodified loop minimum, and the
per-iteration region becomes [prev_max_plus_one, max_required] when
sliding up or [min_required, prev_min_minus_one] when sliding down; in
every other case the rewritten bound is a conditional yielding the
original bound at or before the original loop minimum and the
likely-annotated adjacent-iteration bound otherwise, and the recorded
loop start is not changed. -/
theorem C5_solve_new_loop_min
    (o : Oracles) (lv : String) (lm m M p1 p2 : Expr) (up : Bool) (st : SWState) :
    (∀ lo hi : Expr,
      o.solve_for_inner_interval
          (o.lower_safe_promises (newLoopMinEq lv lm m M p1 p2 up (o.fresh st.ctr)))
          (o.fresh st.ctr) = ⟨some lo, some hi⟩ →
      lo = hi →
      st.new_loop_min = none →
      solveStage o lv lm m M p1 p2 up st
        = .ok ((if up then p1 else m), (if up then M else p2),
            { st with ctr := st.ctr + 1,
                      new_loop_min :=
                        if o.simplify hi = lm then none else some (o.simplify hi) })) ∧
    (singlePoint (o.solve_for_inner_interval
        (o.lower_safe_promises (newLoopMinEq lv lm m M p1 p2 up (o.fresh st.ctr)))
        (o.fresh st.ctr)) = false →
      solveStage o lv lm m M p1 p2 up st
        = .ok ((if up then
                  Expr.select (.le (.var lv) lm) m (.call "likely_if_innermost" true p1)
                else m),
               (if up then M
                else Expr.select (.le (.var lv) lm) M (.call "likely_if_innermost" true p2)),
               { st with ctr := st.ctr + 1 })) := by
  constructor
  · intro lo hi hiv heq hnone
    subst heq
    unfold solveStage
    cases up <;> simp [hiv, singlePoint, hnone]
  · intro hsp
    unfold solveStage
    cases up <;> simp [hsp]

/-- C5 (witness): the single-point solver adopts 5 as the new loop
minimum with region [prev_max_plus_one, max_required], while the
unbounded solver produces the guarded select fallback and leaves the
recorded loop start unchanged. -/
theorem C5_solve_witness :
    (oT.solve_for_inner_interval
        (oT.lower_safe_promises (newLoopMinEq "t" (.intImm 0) (.var "t")
          (.add (.var "t") (.intImm 1)) (.intImm 3) (.intImm 4) true (oT.fresh 0)))
        (oT.fresh 0) = ⟨some (.intImm 5), some (.intImm 5)⟩) ∧
    (solveStage oT "t" (.intImm 0) (.var "t") (.add (.var "t") (.intImm 1))
        (.intImm 3) (.intImm 4) true st0
      = .ok (.intImm 3, .add (.var "t") (.intImm 1), ⟨[], some (.intImm 5), [], 1⟩)) ∧
    (singlePoint (oNS.solve_for_inner_interval
        (oNS.lower_safe_promises (newLoopMinEq "t" (.intImm 0) (.var "t")
          (.add (.var "t") (.intImm 1)) (.intImm 3) (.intImm 4) true (oNS.fresh 0)))
        (oNS.fresh 0)) = false) ∧
    solveStage oNS "t" (.intImm 0) (.var "t") (.add (.var "t") (.intImm 1))
        (.intImm 3) (.intImm 4) true st0
      = .ok (.select (.le (.var "t") (.intImm 0)) (.var "t")
               (.call "likely_if_innermost" true (.intImm 3)),
             .add (.var "t") (.intImm 1), ⟨[], none, [], 1⟩) :=
  ⟨rfl,
   (C5_solve_new_loop_min oT "t" (.intImm 0) (.var "t") (.add (.var "t") (.intImm 1))
     (.intImm 3) (.intImm 4) true st0).1 (.intImm 5) (.intImm 5) rfl rfl rfl,
   rfl,
   (C5_solve_new_loop_min oNS "t" (.intImm 0) (.var "t") (.add (.var "t") (.intImm 1))
     (.intImm 3) (.intImm 4) true st0).2 rfl⟩

/-! Claim C7. -/

/-- C7: once a new loop minimum has been adopted, a consumer marker that
does not contain a producer of the sliding stage has its body wrapped in
a conditional guarded by the likely-annotated test that the loop variable
is at or past the original loop minimum, and the conditional is placed
inside the consumer node (so markers attached to the consumer node stay
outside the guard). -/
theorem C7_warmup_guard
    (o : Oracles) (func : FunctionH) (lv : String) (lm : Expr) (scope : Scope)
    (nm : String) (body : Stmt) (st : SWState) (e : Expr) (b' : Stmt) (st' : SWState)
    (hmin : st.new_loop_min = some e)
    (hnp : find_produce (.producerConsumer nm false body) func.fname = false)
    (hbody : mutateStmt o func lv lm scope body st = .ok (b', st')) :
    mutateStmt o func lv lm scope (.producerConsumer nm false body) st
      = .ok (.producerConsumer nm false
          (.ifThenElse (.call "likely_if_innermost" true
            (.ge (.var lv) (.var (lv ++ ".loop_min.orig")))) b'), st') := by
  simp only [mutateStmt]
  simp [hmin, hnp, hbody]

/-- C7 (witness): a consumer for a different stage visited after the
loop minimum was adopted gets the warmup guard wrapped around its body,
inside the consumer node. -/
theorem C7_guard_witness :
    (SWState.new_loop_min ⟨[], some (.intImm 5), [], 1⟩ = some (.intImm 5)) ∧
    (find_produce (.producerConsumer "h" false (.evaluate (.intImm 2))) "f" = false) ∧
    (mutateStmt oT fImpureInit "t" (.intImm 0) [] (.evaluate (.intImm 2))
        ⟨[], some (.intImm 5), [], 1⟩
      = .ok (.evaluate (.intImm 2), ⟨[], some (.intImm 5), [], 1⟩)) ∧
    mutateStmt oT fImpureInit "t" (.intImm 0) []
        (.producerConsumer "h" false (.evaluate (.intImm 2)))
        ⟨[], some (.intImm 5), [], 1⟩
      = .ok (.producerConsumer "h" false
          (.ifThenElse (.call "likely_if_innermost" true
            (.ge (.var "t") (.var ("t" ++ ".loop_min.orig"))))
            (.evaluate (.intImm 2))),
          ⟨[], some (.intImm 5), [], 1⟩) :=
  ⟨rfl, rfl, rfl,
   C7_warmup_guard oT fImpureInit "t" (.intImm 0) [] "h" (.evaluate (.intImm 2))
     ⟨[], some (.intImm 5), [], 1⟩ (.intImm 5) (.evaluate (.intImm 2))
     ⟨[], some (.intImm 5), [], 1⟩ rfl rfl rfl⟩

/-! Claim C2. -/

/-- Once a dimension has been selected, a tail of dimensions that all
have their bounds in scope and do not depend on the loop variable leaves
the selection untouched. -/
theorem selgoCarry (pfx : String) (scope : Scope) (lv : String) (dims : Nat) :
    ∀ (Mid rest : List String) (i : Nat) (s : Sel),
      (∀ x ∈ Mid, (boundsAt pfx scope x).isSome ∧ depOf pfx scope lv x = false) →
      selectDimGo pfx scope lv dims (Mid ++ rest) i (some s)
        = selectDimGo pfx scope lv dims rest (i + Mid.length) (some s) := by
  intro Mid
  induction Mid with
  | nil => intro rest i s _; simp
  | cons a Mid ih =>
      intro rest i s h
      obtain ⟨hsome, hdep⟩ := h a (by simp)
      obtain ⟨⟨m, M⟩, hBa⟩ := Option.isSome_iff_exists.mp hsome
      have hcond : (expr_depends_on_var m lv || expr_depends_on_var M lv) = false := by
        unfold depOf at hdep
        rw [hBa] at hdep
        exact hdep
      simp [selectDimGo, hBa, hcond, List.append_eq]
      rw [ih rest (i + 1) s (fun x hx => h x (by simp [hx]))]
      have hn : i + 1 + Mid.length = i + (Mid.length + 1) := by omega
      rw [hn]

/-- A prefix of dimensions that all have their bounds in scope and do not
depend on the loop variable is skipped with no selection made, as long as
more dimensions follow (so the last-dimension fallback cannot fire). -/
theorem selgoSkip (pfx : String) (scope : Scope) (lv : String) (dims : Nat) :
    ∀ (A rest : List String) (i : Nat),
      (∀ x ∈ A, (boundsAt pfx scope x).isSome ∧ depOf pfx scope lv x = false) →
      i + A.length + rest.length = dims →
      rest ≠ [] →
      selectDimGo pfx scope lv dims (A ++ rest) i none
        = selectDimGo pfx scope lv dims rest (i + A.length) none := by
  intro A
  induction A with
  | nil => intro rest i _ _ _; simp
  | cons a A ih =>
      intro rest i h hlen hrest
      obtain ⟨hsome, hdep⟩ := h a (by simp)
      obtain ⟨⟨m, M⟩, hBa⟩ := Option.isSome_iff_exists.mp hsome
      have hcond : (expr_depends_on_var m lv || expr_depends_on_var M lv) = false := by
        unfold depOf at hdep
        rw [hBa] at hdep
        exact hdep
      have hpos : 0 < rest.length := List.length_pos.mpr hrest
      simp only [List.length_cons] at hlen
      have hne : ¬(i = dims - 1) := by omega
      simp [selectDimGo, hBa, hcond, hne, List.append_eq]
      rw [ih rest (i + 1) (fun x hx => h x (by simp [hx])) (by omega) hrest]
      have hn : i + 1 + A.length = i + (A.length + 1) := by omega
      rw [hn]

/-- C2: dimension selection is a three-way rule over the expanded bounds
of the stage's last definition: with exactly one dimension depending on
the loop variable, that dimension is selected with its expanded bounds;
with a second dependent dimension the selection is cleared and the
producer visit returns the subtree unchanged; with no dependent dimension
the last dimension is selected when its expanded bounds are pure
expressions. -/
theorem C2_dimension_selection
    (func : FunctionH) (lv : String) (scope : Scope) (o : Oracles) (lm : Expr)
    (body : Stmt) (st : SWState) :
    (∀ (A : List String) (a : String) (B : List String),
      func.fargs = A ++ a :: B →
      (∀ x ∈ func.fargs, (boundsAt (stagePfx func) scope x).isSome) →
      depOf (stagePfx func) scope lv a = true →
      (∀ x ∈ A, depOf (stagePfx func) scope lv x = false) →
      (∀ x ∈ B, depOf (stagePfx func) scope lv x = false) →
      selectDim func lv scope
        = .ok (some ⟨a, A.length, (boundsAtD (stagePfx func) scope a).1,
            (boundsAtD (stagePfx func) scope a).2⟩)) ∧
    (∀ (A : List String) (a : String) (Mid : List String) (b : String) (B : List String),
      func.fargs = A ++ a :: (Mid ++ b :: B) →
      (∀ x ∈ func.fargs, (boundsAt (stagePfx func) scope x).isSome) →
      depOf (stagePfx func) scope lv a = true →
      depOf (stagePfx func) scope lv b = true →
      (∀ x ∈ A, depOf (stagePfx func) scope lv x = false) →
      (∀ x ∈ Mid, depOf (stagePfx func) scope lv x = false) →
      selectDim func lv scope = .ok none) ∧
    (∀ (A : List String) (a : String),
      func.fargs = A ++ [a] →
      (∀ x ∈ func.fargs, (boundsAt (stagePfx func) scope x).isSome) →
      (∀ x ∈ func.fargs, depOf (stagePfx func) scope lv x = false) →
      is_pure (boundsAtD (stagePfx func) scope a).1 = true →
      is_pure (boundsAtD (stagePfx func) scope a).2 = true →
      selectDim func lv scope
        = .ok (some ⟨a, func.fargs.length - 1, (boundsAtD (stagePfx func) scope a).1,
            (boundsAtD (stagePfx func) scope a).2⟩)) ∧
    (selectDim func lv scope = .ok none →
      slideProducer o func lv lm scope body st
        = .ok (.producerConsumer func.fname true body, st)) := by
  refine ⟨?_, ?_, ?_, ?_⟩
  · intro A a B hsplit hall hdep hA hB
    rw [hsplit] at hall
    unfold selectDim
    rw [hsplit]
    rw [selgoSkip (stagePfx func) scope lv (A ++ a :: B).length A (a :: B) 0
        (fun x hx => ⟨hall x (by simp [hx]), hA x hx⟩)
        (by simp [List.length_append]) (by simp)]
    obtain ⟨⟨m, M⟩, hBa⟩ :=
      Option.isSome_iff_exists.mp (hall a (by simp))
    have hcond : (expr_depends_on_var m lv || expr_depends_on_var M lv) = true := by
      unfold depOf at hdep
      rw [hBa] at hdep
      exact hdep
    simp [selectDimGo, hBa, hcond]
    have hcarry := selgoCarry (stagePfx func) scope lv (A.length + (B.length + 1)) B []
        (A.length + 1) ⟨a, A.length, m, M⟩
        (fun x hx => ⟨hall x (by simp [hx]), hB x hx⟩)
    rw [List.append_nil] at hcarry
    rw [hcarry]
    simp [selectDimGo, boundsAtD, hBa]
  · intro A a Mid b B hsplit hall hdepa hdepb hA hMid
    rw [hsplit] at hall
    unfold selectDim
    rw [hsplit]
    rw [selgoSkip (stagePfx func) scope lv (A ++ a :: (Mid ++ b :: B)).length A
        (a :: (Mid ++ b :: B)) 0
        (fun x hx => ⟨hall x (by simp [hx]), hA x hx⟩)
        (by simp [List.length_append]) (by simp)]
    obtain ⟨⟨m, M⟩, hBa⟩ :=
      Option.isSome_iff_exists.mp (hall a (by simp))
    have hconda : (expr_depends_on_var m lv || expr_depends_on_var M lv) = true := by
      unfold depOf at hdepa
      rw [hBa] at hdepa
      exact hdepa
    simp [selectDimGo, hBa, hconda]
    rw [selgoCarry (stagePfx func) scope lv
        (A.length + (Mid.length + (B.length + 1) + 1)) Mid
        (b :: B) (A.length + 1) ⟨a, A.length, m, M⟩
        (fun x hx => ⟨hall x (by simp [hx]), hMid x hx⟩)]
    obtain ⟨⟨mb, Mb⟩, hBb⟩ :=
      Option.isSome_iff_exists.mp (hall b (by simp))
    have hcondb : (expr_depends_on_var mb lv || expr_depends_on_var Mb lv) = true := by
      unfold depOf at hdepb
      rw [hBb] at hdepb
      exact hdepb
    simp [selectDimGo, hBb, hcondb]
  · intro A a hsplit hall hnodep hp1 hp2
    rw [hsplit] at hall hnodep
    unfold selectDim
    rw [hsplit]
    rw [selgoSkip (stagePfx func) scope lv (A ++ [a]).length A [a] 0
        (fun x hx => ⟨hall x (by simp [hx]), hnodep x (by simp [hx])⟩)
        (by simp [List.length_append]) (by simp)]
    obtain ⟨⟨m, M⟩, hBa⟩ :=
      Option.isSome_iff_exists.mp (hall a (by simp))
    have hcond : (expr_depends_on_var m lv || expr_depends_on_var M lv) = false := by
      have hdep := hnodep a (by simp)
      unfold depOf at hdep
      rw [hBa] at hdep
      exact hdep
    have hpm : is_pure m = true := by
      have h1 := hp1
      unfold boundsAtD at h1
      rw [hBa] at h1
      exact h1
    have hpM : is_pure M = true := by
      have h2 := hp2
      unfold boundsAtD at h2
      rw [hBa] at h2
      exact h2
    simp [selectDimGo, hBa, hcond, hpm, hpM, boundsAtD, List.length_append]
  · intro h
    unfold slideProducer
    rw [h]

/-- C2 (witness): a two-dimensional stage whose second dimension slides
with loop t while the first is loop-invariant selects dimension y at
index 1 with its expanded bounds. -/
theorem C2_selection_witness :
    ((FunctionH.fargs ⟨"g2", ["x", "y"], .mk [.var "x", .var "y"] [], []⟩)
       = ["x"] ++ "y" :: []) ∧
    (depOf (stagePfx ⟨"g2", ["x", "y"], .mk [.var "x", .var "y"] [], []⟩)
       [("g2.s0.x.min", .intImm 0), ("g2.s0.x.max", .intImm 7),
        ("g2.s0.y.min", .var "t"), ("g2.s0.y.max", .add (.var "t") (.intImm 2))]
       "t" "y" = true) ∧
    selectDim ⟨"g2", ["x", "y"], .mk [.var "x", .var "y"] [], []⟩ "t"
       [("g2.s0.x.min", .intImm 0), ("g2.s0.x.max", .intImm 7),
        ("g2.s0.y.min", .var "t"), ("g2.s0.y.max", .add (.var "t") (.intImm 2))]
      = .ok (some ⟨"y", 1, .var "t", .add (.var "t") (.intImm 2)⟩) :=
  ⟨rfl, rfl, by
    have h := (C2_dimension_selection ⟨"g2", ["x", "y"], .mk [.var "x", .var "y"] [], []⟩
      "t" [("g2.s0.x.min", .intImm 0), ("g2.s0.x.max", .intImm 7),
        ("g2.s0.y.min", .var "t"), ("g2.s0.y.max", .add (.var "t") (.intImm 2))]
      oT (.intImm 0) (.evaluate (.intImm 0)) st0).1 ["x"] "y" []
      rfl (by decide) rfl (by decide) (by decide)
    exact h.trans rfl⟩

/-! Claim C6. -/

/-- Appending the disambiguating ".n" suffix always changes a name. -/
theorem append_n_ne (s : String) : s ++ ".n" ≠ s := by
  intro h
  have h2 := congrArg String.length h
  simp [String.length_append] at h2
  exact absurd h2 (by decide)

/-- C6: when the per-loop slider adopts a new loop minimum, the per-stage
driver renames the loop with the ".n" suffix, rewrites internal
references to the old loop name and its loop_min / loop_extent names,
rebuilds the loop over the new minimum and an extent of
original_max - new_min + 1, and wraps it in bindings for the new minimum,
the saved original minimum, the recomputed extent, and the derived
maximum; under any integer valuation the new minimum plus the new extent
minus 1 equals the original loop's upper bound. -/
theorem C6_extent_preservation
    (o : Oracles) (func : FunctionH) (fuel : Nat) (nm loName : String) (ext : Expr)
    (t : ForType) (body body1 : Stmt) (stS : SWState) (nlm : Expr) (b3 : Stmt)
    (htype : t = ForType.Serial ∨ t = ForType.Unrolled)
    (hslider : mutateStmt o func nm (.var loName) [] body st0 = .ok (body1, stS))
    (hnlm : stS.new_loop_min = some nlm)
    (hrec : swofMutateF o func fuel
        (substituteMapS [(nm, .var (nm ++ ".n")),
           (nm ++ ".loop_extent", .var (nm ++ ".n" ++ ".loop_extent")),
           (nm ++ ".loop_min", .var (nm ++ ".n" ++ ".loop_min"))] body1) = .ok b3) :
    swofMutateF o func (fuel + 1) (.forS nm (.var loName) ext t body)
      = .ok (.letStmt (nm ++ ".n" ++ ".loop_min") nlm
          (.letStmt (nm ++ ".n" ++ ".loop_min.orig") (.var (nm ++ ".n" ++ ".loop_min"))
            (.letStmt (nm ++ ".n" ++ ".loop_extent")
              (.add (.sub (.var (loName.dropRight 2 ++ "ax"))
                (.var (nm ++ ".n" ++ ".loop_min"))) (.intImm 1))
              (.letStmt (nm ++ ".n" ++ ".loop_max")
                (.sub (.add (.var (nm ++ ".n" ++ ".loop_min"))
                  (.var (nm ++ ".n" ++ ".loop_extent"))) (.intImm 1))
                (.forS (nm ++ ".n") (.var (nm ++ ".n" ++ ".loop_min"))
                  (.var (nm ++ ".n" ++ ".loop_extent")) t b3)))))
    ∧ ∀ σ : String → Int,
        σ (nm ++ ".n" ++ ".loop_min")
          + evalE σ (.add (.sub (.var (loName.dropRight 2 ++ "ax"))
              (.var (nm ++ ".n" ++ ".loop_min"))) (.intImm 1))
          - 1
          = σ (loName.dropRight 2 ++ "ax") := by
  constructor
  · simp only [swofMutateF]
    rw [if_pos htype]
    simp [hslider, hnlm, hrec, append_n_ne]
  · intro σ
    simp [evalE]
    omega

/-- The rewritten producer body after the driver's rename of loop t. -/
def outSlideRen : Stmt :=
  .letStmt "f.s0.x.min"
    (.add (.add (.sub (.var "t.n") (.intImm 1)) (.intImm 1)) (.intImm 1))
    (.letStmt "f.s0.x.max" (.add (.var "t.n") (.intImm 1))
      (.producerConsumer "f" true (.evaluate (.intImm 0))))

/-- C6 (witness): a serial loop over t whose producer slides; the
rewritten loop is t.n with minimum 5 and extent t.loop_max - t.n.loop_min
+ 1, wrapped in the four bindings, and the extent identity holds at a
concrete valuation. -/
theorem C6_extent_witness :
    (mutateStmt oT fImpureInit "t" (.var "t.loop_min") [] inSlide st0
       = .ok (outSlide, ⟨[], some (.intImm 5), [], 1⟩)) ∧
    (SWState.new_loop_min ⟨[], some (.intImm 5), [], 1⟩ = some (.intImm 5)) ∧
    (swofMutateF oT fImpureInit 8
        (substituteMapS [("t", .var ("t" ++ ".n")),
           ("t" ++ ".loop_extent", .var ("t" ++ ".n" ++ ".loop_extent")),
           ("t" ++ ".loop_min", .var ("t" ++ ".n" ++ ".loop_min"))] outSlide)
       = .ok outSlideRen) ∧
    (swofMutateF oT fImpureInit (8 + 1)
        (.forS "t" (.var "t.loop_min") (.var "t.loop_extent") .Serial inSlide)
      = .ok (.letStmt "t.n.loop_min" (.intImm 5)
          (.letStmt "t.n.loop_min.orig" (.var "t.n.loop_min")
            (.letStmt "t.n.loop_extent"
              (.add (.sub (.var "t.loop_max") (.var "t.n.loop_min")) (.intImm 1))
              (.letStmt "t.n.loop_max"
                (.sub (.add (.var "t.n.loop_min") (.var "t.n.loop_extent")) (.intImm 1))
                (.forS "t.n" (.var "t.n.loop_min") (.var "t.n.loop_extent")
                  .Serial outSlideRen)))))) ∧
    ((fun _ => (0 : Int)) "t.n.loop_min"
       + evalE (fun _ => (0 : Int))
           (.add (.sub (.var ("t.loop_min".dropRight 2 ++ "ax")) (.var "t.n.loop_min"))
             (.intImm 1))
       - 1
       = (fun _ => (0 : Int)) ("t.loop_min".dropRight 2 ++ "ax")) :=
  ⟨rfl, rfl, rfl,
   (C6_extent_preservation oT fImpureInit 8 "t" "t.loop_min" (.var "t.loop_extent")
     .Serial inSlide outSlide ⟨[], some (.intImm 5), [], 1⟩ (.intImm 5) outSlideRen
     (Or.inl rfl) rfl rfl rfl).1,
   (C6_extent_preservation oT fImpureInit 8 "t" "t.loop_min" (.var "t.loop_extent")
     .Serial inSlide outSlide ⟨[], some (.intImm 5), [], 1⟩ (.intImm 5) outSlideRen
     (Or.inl rfl) rfl rfl rfl).2 (fun _ => (0 : Int))⟩

/-! Claim C8. -/

/-- C8: the per-stage driver invokes the per-loop slider only at serial
or unrolled loops; at a loop of any other kind no slide is attempted and
the rewritten loop keeps its name, minimum, extent and kind, with only
its body traversed further. -/
theorem C8_serial_only
    (o : Oracles) (func : FunctionH) (fuel : Nat) (nm : String) (lo ext : Expr)
    (t : ForType) (body : Stmt)
    (hs : t ≠ ForType.Serial) (hu : t ≠ ForType.Unrolled) :
    swofMutateF o func (fuel + 1) (.forS nm lo ext t body)
      = match swofMutateF o func fuel body with
        | .error e => .error e
        | .ok b' => .ok (.forS nm lo ext t b') := by
  simp only [swofMutateF]
  rw [if_neg (by simp [hs, hu])]

/-- C8 (witness): a vectorized loop is rebuilt with unchanged name,
minimum and extent; and a serial loop enclosing both a sliding producer
and a vectorized inner loop is still slid (renamed, rebounded), the inner
vectorized loop staying untouched. -/
theorem C8_serial_witness :
    (ForType.Vectorized ≠ ForType.Serial) ∧
    (ForType.Vectorized ≠ ForType.Unrolled) ∧
    (swofMutateF oT fImpureInit (8 + 1)
        (.forS "v" (.var "v.loop_min") (.var "v.loop_extent") .Vectorized
          (.evaluate (.intImm 0)))
      = match swofMutateF oT fImpureInit 8 (.evaluate (.intImm 0)) with
        | .error e => .error e
        | .ok b' => .ok (.forS "v" (.var "v.loop_min") (.var "v.loop_extent")
            .Vectorized b')) ∧
    (swofMutateF oT fImpureInit 9
        (.forS "t" (.var "t.loop_min") (.var "t.loop_extent") .Serial
          (.block inSlide
            (.forS "v" (.var "q") (.var "r") .Vectorized (.evaluate (.intImm 1)))))
      = .ok (.letStmt "t.n.loop_min" (.intImm 5)
          (.letStmt "t.n.loop_min.orig" (.var "t.n.loop_min")
            (.letStmt "t.n.loop_extent"
              (.add (.sub (.var "t.loop_max") (.var "t.n.loop_min")) (.intImm 1))
              (.letStmt "t.n.loop_max"
                (.sub (.add (.var "t.n.loop_min") (.var "t.n.loop_extent")) (.intImm 1))
                (.forS "t.n" (.var "t.n.loop_min") (.var "t.n.loop_extent") .Serial
                  (.block
                    (.letStmt "f.s0.x.min"
                      (.add (.add (.sub (.var "t.n") (.intImm 1)) (.intImm 1)) (.intImm 1))
                      (.letStmt "f.s0.x.max" (.add (.var "t.n") (.intImm 1))
                        (.producerConsumer "f" true (.evaluate (.intImm 0)))))
                    (.forS "v" (.var "q") (.var "r") .Vectorized
                      (.evaluate (.intImm 1)))))))))) :=
  ⟨by decide, by decide,
   C8_serial_only oT fImpureInit 8 "v" (.var "v.loop_min") (.var "v.loop_extent")
     .Vectorized (.evaluate (.intImm 0)) (by decide) (by decide),
   rfl⟩

end SW
